import Mathlib

/-!
Verification of the streaming-synthesis core of the Edge-tts repository.

The frame codec, the streaming session loop, the fallback/retry
orchestrator and the text chunker are embedded shallowly from
`app/ssml_client.py` and `app/tts_worker.py`.  Byte strings are modelled
as `List Nat` (one entry per byte; the messages under study are ASCII
framed), Python `str` text handled by the chunker as `List Char`.
-/

namespace EdgeTts

/-- Bytes of an ASCII string literal (used for protocol header constants). -/
def asciiBytes (s : String) : List Nat :=
  s.toList.map Char.toNat

/-- Helper for `splitCRLF`: prepend a byte to the first fragment. -/
def consHead (c : Nat) : List (List Nat) → List (List Nat)
  | [] => [[c]]
  | l :: ls => (c :: l) :: ls

/-- Python `data.split(b"\r\n")`: split a byte string on every CRLF pair. -/
def splitCRLF : List Nat → List (List Nat)
  | [] => [[]]
  | [c] => [[c]]
  | c :: d :: rest =>
      if c = 13 ∧ d = 10 then [] :: splitCRLF rest
      else consHead c (splitCRLF (d :: rest))

/-- Python `line.split(b":", 1)`: split at the first colon byte; `none`
models the `ValueError` raised when no colon is present. -/
def splitColon1 : List Nat → Option (List Nat × List Nat)
  | [] => none
  | c :: rest =>
      if c = 58 then some ([], rest)
      else (splitColon1 rest).map (fun p => (c :: p.1, p.2))

/-- Python `data.find(pat)` for a non-empty pattern: index of the first
occurrence, `none` for Python's `-1`. -/
def findSub (pat : List Nat) : List Nat → Option Nat
  | [] => none
  | c :: rest =>
      if pat.isPrefixOf (c :: rest) then some 0
      else (findSub pat rest).map (· + 1)

/-- Python slice `l[:n]` for a possibly negative `n`. -/
def pySliceTo (n : Int) (l : List α) : List α :=
  if 0 ≤ n then l.take n.toNat else l.take (l.length - (-n).toNat)

/-- Python slice `l[n:]` for a possibly negative `n`. -/
def pySliceFrom (n : Int) (l : List α) : List α :=
  if 0 ≤ n then l.drop n.toNat else l.drop (l.length - (-n).toNat)

/-- Python `dict` insertion `headers[key] = value`: overwrite in place or
append, preserving insertion order. -/
def dictInsert : List (List Nat × List Nat) → List Nat → List Nat →
    List (List Nat × List Nat)
  | [], k, v => [(k, v)]
  | (k0, v0) :: rest, k, v =>
      if k0 = k then (k0, v) :: rest else (k0, v0) :: dictInsert rest k v

/-- Python `headers.get(key)`. -/
def dictGet (k : List Nat) : List (List Nat × List Nat) → Option (List Nat)
  | [] => none
  | (k0, v0) :: rest => if k0 = k then some v0 else dictGet k rest

/-- The header-building loop of `get_headers_and_data`: each line is split
on its first colon into the header dict; a colon-free line raises
(`none`). -/
def buildHeaders : List (List Nat) → List (List Nat × List Nat) →
    Option (List (List Nat × List Nat))
  | [], acc => some acc
  | line :: rest, acc =>
      match splitColon1 line with
      | none => none
      | some (k, v) => buildHeaders rest (dictInsert acc k v)

/-- `get_headers_and_data(data, header_length)` from `app/ssml_client.py`:
parse `data[:header_length]` as CRLF-separated `Key:Value` lines and
return them with the body `data[header_length + 2:]`. -/
def get_headers_and_data (data : List Nat) (header_length : Int) :
    Option (List (List Nat × List Nat) × List Nat) :=
  (buildHeaders (splitCRLF (pySliceTo header_length data)) []).map
    (fun hs => (hs, pySliceFrom (header_length + 2) data))

/-- `ssml_headers_plus_data(request_id, timestamp, ssml)` from
`app/ssml_client.py`: the outbound payload frame. -/
def ssml_headers_plus_data (request_id timestamp ssml : List Nat) : List Nat :=
  asciiBytes "X-RequestId:" ++ request_id ++
  asciiBytes "\r\nContent-Type:application/ssml+xml\r\nX-Timestamp:" ++
  timestamp ++ asciiBytes "Z\r\nPath:ssml\r\n\r\n" ++ ssml

/-- The JSON body of the configuration frame sent by
`send_command_request` in `SSMLCommunicate.__stream`: the
`speech.config` context literal with the output format interpolated,
including its trailing CRLF. -/
def speech_config_body (output_format : List Nat) : List Nat :=
  asciiBytes "\x7b\"context\":\x7b\"synthesis\":\x7b\"audio\":\x7b\"metadataoptions\":\x7b\"sentenceBoundaryEnabled\":\"false\",\"wordBoundaryEnabled\":\"false\"\x7d,\"outputFormat\":\"" ++
  output_format ++ asciiBytes "\"\x7d\x7d\x7d\x7d\r\n"

/-- The configuration frame `send_command_request` sends in
`SSMLCommunicate.__stream`: `X-Timestamp`/`Content-Type`/`Path` headers,
a blank line, and the JSON body. -/
def speech_config_message (timestamp output_format : List Nat) : List Nat :=
  asciiBytes "X-Timestamp:" ++ timestamp ++
  asciiBytes "\r\nContent-Type:application/json; charset=utf-8\r\nPath:speech.config\r\n\r\n" ++
  speech_config_body output_format

/-- The session's text-frame decoding step: headers and body split at the
first blank-line boundary, `get_headers_and_data(d, d.find(b"\r\n\r\n"))`. -/
def decodeTextMessage (d : List Nat) :
    Option (List (List Nat × List Nat) × List Nat) :=
  get_headers_and_data d
    (match findSub [13, 10, 13, 10] d with
     | some n => (n : Int)
     | none => -1)

/-! ### Streaming synthesis session (`SSMLCommunicate` in `app/ssml_client.py`) -/

/-- One inbound WebSocket message, as seen by the frame loop of
`SSMLCommunicate.__stream`. -/
inductive WSMsg
  | text (data : List Nat)
  | binary (data : List Nat)
  | error (info : List Nat)
  deriving DecidableEq

/-- Exceptions `SSMLCommunicate.__stream` can raise. -/
inductive StreamErr
  | noAudioReceived
  | webSocketError (info : List Nat)
  | valueError
  | clientResponseError (status : Nat)
  deriving DecidableEq

/-- One connection attempt: the messages the socket delivers, and an
optional `aiohttp.ClientResponseError` status raised by the connection
(at handshake when `msgs = []`, or by the iterator after `msgs`). -/
structure ConnAttempt where
  msgs : List WSMsg
  postError : Option Nat
  deriving DecidableEq

/-- `int.from_bytes(data[:2], "big")` for a message of length ≥ 2. -/
def binHeaderLen : List Nat → Nat
  | b0 :: b1 :: _ => 256 * b0 + b1
  | _ => 0

/-- The frame loop of `SSMLCommunicate.__stream`: consume messages,
yield non-empty audio payloads (accumulated in `acc`, most recent
first), track `audio_was_received`, and end with either the yielded
payloads or an error.  List end models the iterator finishing: the
connection closing (`postErr = none`) or raising
(`postErr = some status`). -/
def streamLoop (postErr : Option Nat) :
    List WSMsg → Bool → List (List Nat) → List (List Nat) × Option StreamErr
  | [], received, acc =>
      match postErr with
      | some s => (acc.reverse, some (.clientResponseError s))
      | none =>
          (acc.reverse, if received then none else some .noAudioReceived)
  | .text d :: rest, received, acc =>
      match decodeTextMessage d with
      | none => (acc.reverse, some .valueError)
      | some (parameters, _) =>
          if dictGet (asciiBytes "Path") parameters = some (asciiBytes "turn.end") then
            (acc.reverse, if received then none else some .noAudioReceived)
          else streamLoop postErr rest received acc
  | .binary d :: rest, received, acc =>
      if d.length < 2 then streamLoop postErr rest received acc
      else if binHeaderLen d > d.length then streamLoop postErr rest received acc
      else
        match get_headers_and_data d (binHeaderLen d) with
        | none => (acc.reverse, some .valueError)
        | some (parameters, data) =>
            if dictGet (asciiBytes "Path") parameters ≠ some (asciiBytes "audio") then
              streamLoop postErr rest received acc
            else if (dictGet (asciiBytes "Content-Type") parameters).isNone ∧ data.length = 0 then
              streamLoop postErr rest received acc
            else if data.length > 0 then
              streamLoop postErr rest true (data :: acc)
            else streamLoop postErr rest received acc
  | .error info :: _, _, acc => (acc.reverse, some (.webSocketError info))

/-- One run of `SSMLCommunicate.__stream` over a connection attempt. -/
def runStream (a : ConnAttempt) : List (List Nat) × Option StreamErr :=
  streamLoop a.postError a.msgs false []

/-- Exceptions escaping `SSMLCommunicate.stream`: the single-use
`RuntimeError`, or an exception of the underlying frame loop. -/
inductive StreamErr2
  | runtime
  | se (e : StreamErr)
  deriving DecidableEq

/-- Result of one call to `SSMLCommunicate.stream`: the updated
`stream_was_called` flag, the audio buffers yielded to the caller (also
on an error path, since the generator yields as it goes), the escaping
exception if any, the number of `__stream` invocations (connections
opened), and the number of token refreshes
(`DRM.handle_client_response_error` calls). -/
structure StreamResult where
  state : Bool
  yielded : List (List Nat)
  err : Option StreamErr2
  connections : Nat
  refreshes : Nat
  deriving DecidableEq

/-- `SSMLCommunicate.stream`: guard the single-use flag, run `__stream`,
and on an HTTP-403 `ClientResponseError` refresh the token and rerun
`__stream` once; any other `ClientResponseError` and any error of the
rerun propagate. -/
def SSML_stream (wasCalled : Bool) (env : Nat → ConnAttempt) : StreamResult :=
  if wasCalled then ⟨true, [], some .runtime, 0, 0⟩
  else
    let r1 := runStream (env 0)
    match r1.2 with
    | none => ⟨true, r1.1, none, 1, 0⟩
    | some (.clientResponseError s) =>
        if s = 403 then
          let r2 := runStream (env 1)
          ⟨true, r1.1 ++ r2.1, r2.2.map .se, 2, 1⟩
        else ⟨true, r1.1, some (.se (.clientResponseError s)), 1, 0⟩
    | some e => ⟨true, r1.1, some (.se e), 1, 0⟩

/-- `SSMLCommunicate.save`: open the destination (truncating) and write
every yielded audio payload; the file content is the concatenation of
the payloads written before the stream ended or raised. -/
def SSML_save (env : Nat → ConnAttempt) : List Nat × Option StreamErr2 :=
  let r := SSML_stream false env
  (r.yielded.flatten, r.err)

/-! ### Fallback/retry orchestrator (`TtsWorker` in `app/tts_worker.py`) -/

instance {ε α : Type} [DecidableEq ε] [DecidableEq α] : DecidableEq (Except ε α) := fun
  | .error e, .error f =>
      if h : e = f then .isTrue (by rw [h])
      else .isFalse (by intro hh; cases hh; exact h rfl)
  | .error _, .ok _ => .isFalse (by intro h; cases h)
  | .ok _, .error _ => .isFalse (by intro h; cases h)
  | .ok a, .ok b =>
      if h : a = b then .isTrue (by rw [h])
      else .isFalse (by intro hh; cases hh; exact h rfl)

/-- The three request-construction tiers of `_attempt_generate_audio`. -/
inductive Tier
  | silenceTagged
  | breakTagged
  | plainOrRaw
  deriving DecidableEq

/-- Result of one `_attempt_generate_audio` call: the destination file
content (if any write happened), the returned size or raised exception,
and the tiers attempted in order. -/
structure AttemptRes where
  file : Option (List Nat)
  result : Except StreamErr2 Nat
  trace : List Tier
  deriving DecidableEq

/-- `_attempt_generate_audio`: try the silence-tagged SSML, then the
break-tagged SSML, then the plain/raw fallback, each via a fresh
session's `save`; return the file size of the first success, re-raising
only the final tier's failure.  The plain/raw tier goes through
`edge_tts.Communicate` — a library outside `src/` — Modelled from the
spec: §4.2 describes the session semantics uniformly for all tiers, so
its `save` is given the same model as `SSMLCommunicate.save`. -/
def attempt_generate_audio (env : Tier → Nat → ConnAttempt)
    (_file : Option (List Nat)) : AttemptRes :=
  let r1 := SSML_save (env .silenceTagged)
  match r1.2 with
  | none => ⟨some r1.1, .ok r1.1.length, [.silenceTagged]⟩
  | some _ =>
      let r2 := SSML_save (env .breakTagged)
      match r2.2 with
      | none => ⟨some r2.1, .ok r2.1.length, [.silenceTagged, .breakTagged]⟩
      | some _ =>
          let r3 := SSML_save (env .plainOrRaw)
          match r3.2 with
          | none =>
              ⟨some r3.1, .ok r3.1.length,
               [.silenceTagged, .breakTagged, .plainOrRaw]⟩
          | some e =>
              ⟨some r3.1, .error e,
               [.silenceTagged, .breakTagged, .plainOrRaw]⟩

/-- The user-facing message `_generate_audio` raises when the last error
is `NoAudioReceived` (from `app/tts_worker.py`, with `max_retries = 3`
interpolated). -/
def userMsg : String :=
  "Сервер не вернул данные после 3 попыток.\n" ++
  "Возможные причины:\n" ++
  "1. Проблемы с интернет-соединением или прокси (VLESS).\n" ++
  "2. Текст содержит недопустимые символы или слишком длинный.\n" ++
  "3. Временный сбой сервиса Microsoft.\n" ++
  "Попробуйте изменить голос, отключить/включить прокси или повторить попытку."

/-- Exceptions escaping `_generate_audio`: the wrapped user-facing
`RuntimeError` carrying its message and underlying cause, or the bare
last error. -/
inductive GenErr
  | userFacing (msg : String) (cause : StreamErr2)
  | bare (cause : StreamErr2)
  deriving DecidableEq

/-- Result of `_generate_audio`: file content, size or exception, tier
attempts in order, and the sleeps performed (in seconds). -/
structure GenRes where
  file : Option (List Nat)
  result : Except StreamErr2 Nat
  trace : List Tier
  sleeps : List Nat
  deriving DecidableEq

/-- The retry loop of `_generate_audio`: `for attempt in range(1,
max_retries + 1)`, sleeping `1 * attempt` seconds between failed
attempts; `remaining` counts the attempts still allowed after the
current one (the `0` fuel case is unreachable from `generate_audio`). -/
def genLoop (env : Nat → Tier → Nat → ConnAttempt) (file : Option (List Nat))
    (attempt : Nat) : Nat → GenRes
  | 0 => ⟨file, .error .runtime, [], []⟩
  | remaining + 1 =>
      let r := attempt_generate_audio (env attempt) file
      match r.result with
      | .ok n => ⟨r.file, .ok n, r.trace, []⟩
      | .error e =>
          match remaining with
          | 0 => ⟨r.file, .error e, r.trace, []⟩
          | rem + 1 =>
              let rest := genLoop env r.file (attempt + 1) (rem + 1)
              ⟨rest.file, rest.result, r.trace ++ rest.trace,
               attempt :: rest.sleeps⟩

/-- Result of `_generate_audio` after error wrapping. -/
structure GenAudioRes where
  file : Option (List Nat)
  result : Except GenErr Nat
  trace : List Tier
  sleeps : List Nat
  deriving DecidableEq

/-- `_generate_audio`: run `_attempt_generate_audio` with up to 3
retries and linear backoff; after exhaustion wrap a `NoAudioReceived`
last error in the user-facing `RuntimeError` (with the cause chained),
and re-raise any other last error unchanged. -/
def generate_audio (env : Nat → Tier → Nat → ConnAttempt)
    (file : Option (List Nat)) : GenAudioRes :=
  let r := genLoop env file 1 3
  match r.result with
  | .ok n => ⟨r.file, .ok n, r.trace, r.sleeps⟩
  | .error e =>
      match e with
      | .se .noAudioReceived =>
          ⟨r.file, .error (.userFacing userMsg e), r.trace, r.sleeps⟩
      | _ => ⟨r.file, .error (.bare e), r.trace, r.sleeps⟩

/-! ### Text chunker (`TtsWorker._chunk_text`) -/

/-- The whitespace characters removed by Python `str.strip()`: the
CPython `Py_UNICODE_ISSPACE` table — `\t`-`\r` (9-13), `\x1c`-`\x20`
(28-32), NEL (133), NBSP (160), Ogham space mark (5760), the
` `-` ` spaces (8192-8202), line/paragraph separators
(8232/8233), narrow NBSP (8239), medium mathematical space (8287) and
ideographic space (12288). -/
def isPySpace (c : Char) : Bool :=
  decide ((9 ≤ c.toNat ∧ c.toNat ≤ 13) ∨ (28 ≤ c.toNat ∧ c.toNat ≤ 32) ∨
    c.toNat = 133 ∨ c.toNat = 160 ∨ c.toNat = 5760 ∨
    (8192 ≤ c.toNat ∧ c.toNat ≤ 8202) ∨ c.toNat = 8232 ∨ c.toNat = 8233 ∨
    c.toNat = 8239 ∨ c.toNat = 8287 ∨ c.toNat = 12288)

/-- Python `text.strip()`. -/
def pyStrip (l : List Char) : List Char :=
  (l.dropWhile isPySpace).rdropWhile isPySpace

/-- Scanner for `rfind`: index of the last match seen so far (`best`,
starting at `-1`), with `i` the index of the current position. -/
def rfindAux (pat : List Char) : Nat → Int → List Char → Int
  | _, best, [] => best
  | i, best, c :: rest =>
      rfindAux pat (i + 1)
        (if pat.isPrefixOf (c :: rest) then (i : Int) else best) rest

/-- Python `s.rfind(pat)` for a non-empty pattern: highest match index,
`-1` when absent. -/
def rfind (s pat : List Char) : Int :=
  rfindAux pat 0 (-1) s

/-- The sentence-terminator patterns scanned by `_chunk_text`, in
source order. -/
def terminators : List (List Char) :=
  [['.', ' '], ['!', ' '], ['?', ' '], ['.', '\n'], ['!', '\n'], ['?', '\n']]

/-- One step of `_chunk_text`'s terminator scan:
`if idx != -1: split_idx = max(split_idx, idx + 1)`. -/
def termStep (limit : List Char) (acc : Int) (pat : List Char) : Int :=
  if rfind limit pat ≠ -1 then max acc (rfind limit pat + 1) else acc

/-- The split-point selection of `_chunk_text`'s loop body: best
sentence-terminator position + 1, else last newline, else last space,
else a hard cut at `max_chars`. -/
def chooseSplitIdx (limit : List Char) (max_chars : Nat) : Int :=
  let s1 := terminators.foldl (termStep limit) (-1)
  let s2 := if s1 = -1 then rfind limit ['\n'] else s1
  let s3 := if s2 = -1 then rfind limit [' '] else s2
  if s3 = -1 then (max_chars : Int) else s3

/-- The `while len(text) > max_chars` loop of `_chunk_text`, including
the trailing `if text: chunks.append(text)`.  `fuel` bounds the number
of iterations; every iteration strictly shortens `text` when
`max_chars ≥ 1`, so `fuel = text.length` never runs out (the `0` case
is unreachable from `chunk_text`). -/
def chunkLoop (max_chars : Nat) : Nat → List Char → List (List Char)
  | 0, _ => []
  | fuel + 1, text =>
      if text.length > max_chars then
        let limit := text.take max_chars
        let si := (chooseSplitIdx limit max_chars).toNat
        pyStrip (text.take si) ::
          chunkLoop max_chars fuel (pyStrip (text.drop si))
      else if text ≠ [] then [text] else []

/-- `TtsWorker._chunk_text(text, max_chars)`. -/
def chunk_text (text : List Char) (max_chars : Nat) : List (List Char) :=
  if text.length ≤ max_chars then [text]
  else chunkLoop max_chars text.length text

/-! ### `TtsWorker._generate_single_file` -/

/-- Modelled from the spec: `_merge_audio_files` delegates to the
external stream-copy concatenation tool (ffmpeg, outside `src/`), whose
output is the byte-for-byte concatenation of the inputs in order
(§4.5, §8 "Stitch ordering"). -/
def mergeFiles (files : List (List Nat)) : List Nat :=
  files.flatten

/-- The per-chunk loop of `_generate_single_file`'s multi-chunk path:
synthesize each chunk to a fresh temp file, abort on the first failure
(the destination is then never written), and merge the temp contents
into the destination at the end. -/
def multiChunkLoop (env : Nat → Nat → Tier → Nat → ConnAttempt) :
    Nat → List (List Char) → List (List Nat) →
    Option (List Nat) × Option GenErr
  | _, [], acc => (some (mergeFiles acc.reverse), none)
  | i, _chunk :: rest, acc =>
      let r := generate_audio (env i) none
      match r.result with
      | .error e => (none, some e)
      | .ok _ => multiChunkLoop env (i + 1) rest ((r.file.getD []) :: acc)

/-- `TtsWorker._generate_single_file(text, final_destination)` for an
already pre-processed `text` (the Gemini/Yoditor pre-processing is an
external collaborator; the claim quantifies over its output): return
early with no file when the text is empty or whitespace-only, otherwise
chunk at 5000 characters and synthesize directly (one chunk) or via
temp files and a merge (several).  The result is the destination file
content (if created) and the escaping exception (if any). -/
def generate_single_file (text : List Char)
    (env : Nat → Nat → Tier → Nat → ConnAttempt) :
    Option (List Nat) × Option GenErr :=
  if text = [] ∨ pyStrip text = [] then (none, none)
  else
    let chunks := chunk_text text 5000
    if chunks.length = 1 then
      let r := generate_audio (env 0) none
      (r.file, match r.result with | .ok _ => none | .error e => some e)
    else multiChunkLoop env 0 chunks []

/-! ### Concrete fixtures used by witnesses and counterexamples -/

/-- A well-formed `Path:turn.end` text frame. -/
def turnEndFrame : List Nat :=
  asciiBytes "X-RequestId:1\r\nPath:turn.end\r\n\r\n"

/-- Header block of a well-formed binary audio frame. -/
def audioHdr : List Nat :=
  asciiBytes "X-RequestId:1\r\nContent-Type:audio/mpeg\r\nPath:audio\r\n"

/-- A well-formed binary audio frame carrying the single payload byte
`77`: 2-byte big-endian header length, header block, payload. -/
def audioFrame : List Nat :=
  [0, audioHdr.length] ++ audioHdr ++ [77]

/-- A connection attempt that delivers one audio payload and closes. -/
def okAttempt : ConnAttempt := ⟨[.binary audioFrame], none⟩

/-- A connection attempt that fails at handshake with HTTP 500. -/
def failAttempt : ConnAttempt := ⟨[], some 500⟩

/-- A connection attempt that closes without delivering any audio. -/
def silentAttempt : ConnAttempt := ⟨[], none⟩

/-- Orchestrator environment of the C1 scenario: the silence-tagged and
break-tagged tiers always fail, the plain/raw tier always succeeds. -/
def envScenario : Nat → Tier → Nat → ConnAttempt := fun _ t _ =>
  match t with
  | .plainOrRaw => okAttempt
  | _ => failAttempt

/-- Orchestrator environment where every tier fails with HTTP 500. -/
def envAllFail : Nat → Tier → Nat → ConnAttempt := fun _ _ _ => failAttempt

/-- Orchestrator environment where every session closes with no audio. -/
def envNoAudio : Nat → Tier → Nat → ConnAttempt := fun _ _ _ => silentAttempt

/-- Session environment: handshake 403 on the first attempt, success on
the retry. -/
def env403 : Nat → ConnAttempt := fun n =>
  if n = 0 then ⟨[], some 403⟩ else okAttempt

/-- Session environment: handshake 500 on the first attempt. -/
def env500 : Nat → ConnAttempt := fun _ => ⟨[], some 500⟩

/-- Session environment: the first attempt yields one audio buffer and
then raises 403; the retry succeeds from the start. -/
def env403mid : Nat → ConnAttempt := fun n =>
  if n = 0 then ⟨[.binary audioFrame], some 403⟩ else okAttempt

/-- Orchestrator environment for `_generate_single_file` where every
connection attempt of every chunk succeeds. -/
def envPerfect : Nat → Nat → Tier → Nat → ConnAttempt :=
  fun _ _ _ _ => okAttempt

/-! ## Theorems -/

/-- Every call to `SSMLCommunicate.stream` leaves the single-use flag
set. -/
theorem SSML_stream_state (w : Bool) (env : Nat → ConnAttempt) :
    (SSML_stream w env).state = true := by
  cases w with
  | true => rfl
  | false =>
      rcases hr : (runStream (env 0)).2 with _ | e
      · simp [SSML_stream, hr]
      · cases e <;> simp [SSML_stream, hr]
        split <;> rfl

/-- C9: after any first call to `stream()` on an `SSMLCommunicate`
instance, a second call fails with the usage `RuntimeError`, yields
nothing, opens no connection and performs no token refresh — the
session is single-use. -/
theorem c9_single_use (env1 env2 : Nat → ConnAttempt) :
    SSML_stream (SSML_stream false env1).state env2 =
      ⟨true, [], some .runtime, 0, 0⟩ := by
  rw [SSML_stream_state]
  rfl

/-- C8: the session's frame loop discards a binary message shorter than
2 bytes, or whose 2-byte big-endian declared header length exceeds the
message length, and continues exactly as if the message had not
arrived, raising nothing. -/
theorem c8_binary_tolerance (d : List Nat) (rest : List WSMsg)
    (postErr : Option Nat) (received : Bool) (acc : List (List Nat))
    (h : d.length < 2 ∨ binHeaderLen d > d.length) :
    streamLoop postErr (.binary d :: rest) received acc =
      streamLoop postErr rest received acc := by
  by_cases h2 : d.length < 2
  · simp [streamLoop, h2]
  · rcases h with h | h
    · exact absurd h h2
    · simp [streamLoop, h2, h]

/-- Witness for C8 at concrete frames: a 1-byte message and a message
declaring a 200-byte header in 3 bytes are both skipped. -/
theorem c8_binary_tolerance_witness :
    streamLoop none [.binary [5]] false [] = streamLoop none [] false [] ∧
    streamLoop none [.binary [0, 200, 1]] false [] =
      streamLoop none [] false [] :=
  ⟨c8_binary_tolerance [5] [] none false [] (Or.inl (by decide)),
   c8_binary_tolerance [0, 200, 1] [] none false [] (Or.inr (by decide))⟩

/-- C5: when the first `__stream` run fails with an HTTP-403
`ClientResponseError`, `stream()` refreshes the token exactly once and
reruns `__stream` exactly once, propagating the rerun's outcome (so a
second 403 propagates to the caller); a non-403 `ClientResponseError`
on the first run propagates with no retry and no refresh. -/
theorem c5_auth_refresh :
    (∀ (env : Nat → ConnAttempt) (p : List (List Nat)),
        runStream (env 0) = (p, some (.clientResponseError 403)) →
        SSML_stream false env =
          ⟨true, p ++ (runStream (env 1)).1,
           (runStream (env 1)).2.map .se, 2, 1⟩) ∧
    (∀ (env : Nat → ConnAttempt) (p : List (List Nat)) (s : Nat),
        s ≠ 403 →
        runStream (env 0) = (p, some (.clientResponseError s)) →
        SSML_stream false env =
          ⟨true, p, some (.se (.clientResponseError s)), 1, 0⟩) := by
  constructor
  · intro env p h
    simp [SSML_stream, h]
  · intro env p s hs h
    simp [SSML_stream, h, hs]

/-- Witness for C5: a handshake 403 followed by a successful retry, and
a handshake 500 with no retry. -/
theorem c5_auth_refresh_witness :
    SSML_stream false env403 =
      ⟨true, [] ++ (runStream (env403 1)).1,
       (runStream (env403 1)).2.map .se, 2, 1⟩ ∧
    SSML_stream false env500 =
      ⟨true, [], some (.se (.clientResponseError 500)), 1, 0⟩ :=
  ⟨c5_auth_refresh.1 env403 [] (by decide),
   c5_auth_refresh.2 env500 [] 500 (by decide) (by decide)⟩

/-- C10: if the first `__stream` run yields `p` (non-empty) before
raising a 403, and the retried run succeeds with the full sequence `q`,
the caller of `stream()` receives `p ++ q` — the pre-403 prefix is kept
and the retried sequence restarts from the beginning — and `save()`
writes the duplicated prefix `p.flatten ++ q.flatten` to the file. -/
theorem c10_duplicated_prefix (env : Nat → ConnAttempt)
    (p q : List (List Nat))
    (h0 : runStream (env 0) = (p, some (.clientResponseError 403)))
    (h1 : runStream (env 1) = (q, none)) (_hp : p ≠ []) :
    SSML_stream false env = ⟨true, p ++ q, none, 2, 1⟩ ∧
    SSML_save env = (p.flatten ++ q.flatten, none) := by
  constructor
  · simp [SSML_stream, h0, h1]
  · simp [SSML_save, SSML_stream, h0, h1]

/-- Witness for C10: one audio buffer, then a 403, then a clean retry —
the saved file contains the buffer twice. -/
theorem c10_duplicated_prefix_witness :
    SSML_stream false env403mid = ⟨true, [[77]] ++ [[77]], none, 2, 1⟩ ∧
    SSML_save env403mid = ([77].append [77], none) :=
  c10_duplicated_prefix env403mid [[77]] [[77]] (by decide) (by decide)
    (by decide)

/-- When every tier of one `_attempt_generate_audio` call fails, the
call tries all three tiers in order and re-raises the plain/raw tier's
error. -/
theorem attempt_all_fail (envA : Tier → Nat → ConnAttempt)
    (f : Option (List Nat)) (h : ∀ t, (SSML_save (envA t)).2 ≠ none) :
    ∃ e, (SSML_save (envA .plainOrRaw)).2 = some e ∧
      attempt_generate_audio envA f =
        ⟨some (SSML_save (envA .plainOrRaw)).1, .error e,
         [.silenceTagged, .breakTagged, .plainOrRaw]⟩ := by
  rcases h1 : (SSML_save (envA .silenceTagged)).2 with _ | e1
  · exact absurd h1 (h _)
  rcases h2 : (SSML_save (envA .breakTagged)).2 with _ | e2
  · exact absurd h2 (h _)
  rcases h3 : (SSML_save (envA .plainOrRaw)).2 with _ | e3
  · exact absurd h3 (h _)
  exact ⟨e3, rfl, by simp [attempt_generate_audio, h1, h2, h3]⟩

/-- When the first two tiers of one `_attempt_generate_audio` call fail
and the plain/raw tier succeeds, the call tries the three tiers in
order once each and returns the written size. -/
theorem attempt_third_ok (envA : Tier → Nat → ConnAttempt)
    (f : Option (List Nat))
    (h1 : (SSML_save (envA .silenceTagged)).2 ≠ none)
    (h2 : (SSML_save (envA .breakTagged)).2 ≠ none)
    (h3 : (SSML_save (envA .plainOrRaw)).2 = none) :
    attempt_generate_audio envA f =
      ⟨some (SSML_save (envA .plainOrRaw)).1,
       .ok (SSML_save (envA .plainOrRaw)).1.length,
       [.silenceTagged, .breakTagged, .plainOrRaw]⟩ := by
  rcases hh1 : (SSML_save (envA .silenceTagged)).2 with _ | e1
  · exact absurd hh1 h1
  rcases hh2 : (SSML_save (envA .breakTagged)).2 with _ | e2
  · exact absurd hh2 h2
  simp [attempt_generate_audio, hh1, hh2, h3]

/-- C1 (amended): the three-retry loop wraps the whole tier cascade,
not each tier.  When the silence-tagged and break-tagged tiers always
fail and the plain/raw tier succeeds, `_generate_audio` performs
exactly one cascade — SilenceTagged, BreakTagged, PlainOrRawText, 3
attempts in total — returns success immediately, and never sleeps.
When every tier always fails, it performs three cascades (9 tier
attempts, in cascade order) sleeping `attempt_index` seconds — 1s then
2s — between cascades. -/
theorem c1_fallback_order_amended :
    (∀ env : Nat → Tier → Nat → ConnAttempt,
      (∀ n, (SSML_save (env n .silenceTagged)).2 ≠ none) →
      (∀ n, (SSML_save (env n .breakTagged)).2 ≠ none) →
      (∀ n, (SSML_save (env n .plainOrRaw)).2 = none) →
      (generate_audio env none).trace =
        [.silenceTagged, .breakTagged, .plainOrRaw] ∧
      (generate_audio env none).sleeps = [] ∧
      ∃ k, (generate_audio env none).result = .ok k) ∧
    (∀ env : Nat → Tier → Nat → ConnAttempt,
      (∀ n t, (SSML_save (env n t)).2 ≠ none) →
      (generate_audio env none).trace =
        [.silenceTagged, .breakTagged, .plainOrRaw,
         .silenceTagged, .breakTagged, .plainOrRaw,
         .silenceTagged, .breakTagged, .plainOrRaw] ∧
      (generate_audio env none).sleeps = [1, 2]) := by
  constructor
  · intro env h1 h2 h3
    have ha := attempt_third_ok (env 1) none (h1 1) (h2 1) (h3 1)
    simp [generate_audio, genLoop, ha]
  · intro env h
    obtain ⟨e1, -, ha1⟩ := attempt_all_fail (env 1) none (fun t => h 1 t)
    obtain ⟨e2, -, ha2⟩ :=
      attempt_all_fail (env 2) (some (SSML_save (env 1 .plainOrRaw)).1)
        (fun t => h 2 t)
    obtain ⟨e3, -, ha3⟩ :=
      attempt_all_fail (env 3) (some (SSML_save (env 2 .plainOrRaw)).1)
        (fun t => h 3 t)
    rcases he3 : e3 with _ | e3'
    · simp [generate_audio, genLoop, ha1, ha2, ha3, he3]
    · cases e3' <;> simp [generate_audio, genLoop, ha1, ha2, ha3, he3]

/-- Witness for C1 (amended), at the concrete scenario environments. -/
theorem c1_fallback_order_amended_witness :
    ((generate_audio envScenario none).trace =
        [.silenceTagged, .breakTagged, .plainOrRaw] ∧
      (generate_audio envScenario none).sleeps = [] ∧
      ∃ k, (generate_audio envScenario none).result = .ok k) ∧
    ((generate_audio envAllFail none).trace =
        [.silenceTagged, .breakTagged, .plainOrRaw,
         .silenceTagged, .breakTagged, .plainOrRaw,
         .silenceTagged, .breakTagged, .plainOrRaw] ∧
      (generate_audio envAllFail none).sleeps = [1, 2]) :=
  ⟨c1_fallback_order_amended.1 envScenario
      (fun _ =>
        show (SSML_save (fun (_ : Nat) => failAttempt)).2 ≠ none by decide)
      (fun _ =>
        show (SSML_save (fun (_ : Nat) => failAttempt)).2 ≠ none by decide)
      (fun _ =>
        show (SSML_save (fun (_ : Nat) => okAttempt)).2 = none by decide),
   c1_fallback_order_amended.2 envAllFail
      (fun _ _ =>
        show (SSML_save (fun (_ : Nat) => failAttempt)).2 ≠ none by decide)⟩

/-- C1 (counterexample): with a session environment failing tiers 1 and
2 but succeeding on tier 3, `_generate_audio` attempts the tiers in
cascade order [SilenceTagged, BreakTagged, PlainOrRawText] — 3
attempts, no sleeping — not the claimed SilenceTagged×3, BreakTagged×3,
PlainOrRawText×1 order of 7 attempts with 1s and 2s sleeps. -/
theorem c1_fallback_order_counterexample :
    (generate_audio envScenario none).trace =
      [.silenceTagged, .breakTagged, .plainOrRaw] ∧
    (generate_audio envScenario none).sleeps = [] ∧
    (generate_audio envScenario none).trace ≠
      [.silenceTagged, .silenceTagged, .silenceTagged,
       .breakTagged, .breakTagged, .breakTagged, .plainOrRaw] ∧
    (generate_audio envScenario none).trace.length ≠ 7 := by
  decide

/-- C7 (amended): when all three retries of the tier cascade fail, the
last underlying error is the plain/raw tier's error of the third
cascade; `_generate_audio` wraps it in the user-facing `RuntimeError`
(with the likely-causes message and the cause chained) exactly when it
is `NoAudioReceived`, and re-raises every other kind of last error
unchanged, with no user-facing wrapper. -/
theorem c7_wrap_amended (env : Nat → Tier → Nat → ConnAttempt)
    (h : ∀ n t, (SSML_save (env n t)).2 ≠ none) :
    ∃ e, (SSML_save (env 3 .plainOrRaw)).2 = some e ∧
      (e = .se .noAudioReceived →
        (generate_audio env none).result =
          .error (.userFacing userMsg e)) ∧
      (e ≠ .se .noAudioReceived →
        (generate_audio env none).result = .error (.bare e)) := by
  obtain ⟨e1, -, ha1⟩ := attempt_all_fail (env 1) none (fun t => h 1 t)
  obtain ⟨e2, -, ha2⟩ :=
    attempt_all_fail (env 2) (some (SSML_save (env 1 .plainOrRaw)).1)
      (fun t => h 2 t)
  obtain ⟨e3, he3, ha3⟩ :=
    attempt_all_fail (env 3) (some (SSML_save (env 2 .plainOrRaw)).1)
      (fun t => h 3 t)
  refine ⟨e3, he3, ?_, ?_⟩
  · intro he
    subst he
    simp [generate_audio, genLoop, ha1, ha2, ha3]
  · intro he
    rcases hc : e3 with _ | e3'
    · simp [generate_audio, genLoop, ha1, ha2, ha3, hc]
    · cases e3' <;> simp_all [generate_audio, genLoop, ha1, ha2, ha3]

/-- Witness for C7 (amended): every session ends with no audio, and the
final error is the wrapped user-facing one with the cause chained. -/
theorem c7_wrap_amended_witness :
    (generate_audio envNoAudio none).result =
      .error (.userFacing userMsg (.se .noAudioReceived)) := by
  obtain ⟨e, he, h1, -⟩ :=
    c7_wrap_amended envNoAudio
      (fun _ _ =>
        show (SSML_save (fun (_ : Nat) => silentAttempt)).2 ≠ none by decide)
  have hx : (SSML_save (envNoAudio 3 .plainOrRaw)).2 =
      some (.se .noAudioReceived) := by decide
  rw [hx] at he
  cases he
  exact h1 rfl

/-- C7 (counterexample): when the last underlying error is not
`NoAudioReceived` (here an HTTP-500 `ClientResponseError` on every
attempt), the orchestrator re-raises it bare: no user-facing error
listing likely causes is produced. -/
theorem c7_wrap_counterexample :
    (generate_audio envAllFail none).result =
      .error (.bare (.se (.clientResponseError 500))) ∧
    (generate_audio envAllFail none).result ≠
      .error (.userFacing userMsg (.se (.clientResponseError 500))) := by
  decide

/-- Invariant of the session frame loop: provided `audio_was_received`
agrees with the accumulator and every accumulated payload is non-empty,
a run that ends without an exception has yielded at least one payload,
all non-empty. -/
theorem streamLoop_ok_nonempty :
    ∀ (msgs : List WSMsg) (postErr : Option Nat) (received : Bool)
      (acc out : List (List Nat)),
      (received = true ↔ acc ≠ []) → (∀ p ∈ acc, p ≠ []) →
      streamLoop postErr msgs received acc = (out, none) →
      out ≠ [] ∧ ∀ p ∈ out, p ≠ [] := by
  intro msgs
  induction msgs with
  | nil =>
      intro postErr received acc out hinv hacc hrun
      rcases postErr with _ | s
      · cases received with
        | false => simp [streamLoop] at hrun
        | true =>
            simp only [streamLoop] at hrun
            have h1 : out = acc.reverse := by
              simpa using (congrArg Prod.fst hrun).symm
            subst h1
            refine ⟨by simpa using hinv.mp rfl, ?_⟩
            intro p hp
            exact hacc p (List.mem_reverse.mp hp)
      · simp [streamLoop] at hrun
  | cons msg rest ih =>
      intro postErr received acc out hinv hacc hrun
      cases msg with
      | text d =>
          rcases hdec : decodeTextMessage d with _ | pb
          · simp [streamLoop, hdec] at hrun
          · obtain ⟨params, body⟩ := pb
            by_cases hp :
                dictGet (asciiBytes "Path") params =
                  some (asciiBytes "turn.end")
            · cases received with
              | false => simp [streamLoop, hdec, hp] at hrun
              | true =>
                  simp only [streamLoop, hdec, hp] at hrun
                  have h1 : out = acc.reverse := by
                    simpa using (congrArg Prod.fst hrun).symm
                  subst h1
                  refine ⟨by simpa using hinv.mp rfl, ?_⟩
                  intro p hp'
                  exact hacc p (List.mem_reverse.mp hp')
            · simp only [streamLoop, hdec, hp, if_neg hp] at hrun
              exact ih postErr received acc out hinv hacc hrun
      | binary d =>
          by_cases h2 : d.length < 2
          · simp only [streamLoop, if_pos h2] at hrun
            exact ih postErr received acc out hinv hacc hrun
          · by_cases hh : binHeaderLen d > d.length
            · simp only [streamLoop, if_neg h2, if_pos hh] at hrun
              exact ih postErr received acc out hinv hacc hrun
            · rcases hg : get_headers_and_data d (binHeaderLen d) with _ | pd
              · simp [streamLoop, h2, hh, hg] at hrun
              · obtain ⟨params, data⟩ := pd
                by_cases hpath :
                    dictGet (asciiBytes "Path") params ≠
                      some (asciiBytes "audio")
                · simp only [streamLoop, if_neg h2, if_neg hh, hg,
                    if_pos hpath] at hrun
                  exact ih postErr received acc out hinv hacc hrun
                · by_cases hct :
                      (dictGet (asciiBytes "Content-Type") params).isNone ∧
                        data.length = 0
                  · simp only [streamLoop, if_neg h2, if_neg hh, hg,
                      if_neg hpath, if_pos hct] at hrun
                    exact ih postErr received acc out hinv hacc hrun
                  · by_cases hd : data.length > 0
                    · simp only [streamLoop, if_neg h2, if_neg hh, hg,
                        if_neg hpath, if_neg hct, if_pos hd] at hrun
                      refine ih postErr true (data :: acc) out ?_ ?_ hrun
                      · simp
                      · intro p hp'
                        rcases List.mem_cons.mp hp' with rfl | hp''
                        · intro hnil
                          rw [hnil] at hd
                          simp at hd
                        · exact hacc p hp''
                    · simp only [streamLoop, if_neg h2, if_neg hh, hg,
                        if_neg hpath, if_neg hct, if_neg hd] at hrun
                      exact ih postErr received acc out hinv hacc hrun
      | error info => simp [streamLoop] at hrun

/-- C6: a session whose frame loop terminates (via `turn.end` or the
connection closing) can never end without an exception unless it
yielded at least one non-empty audio payload; a session that terminates
with zero audio raises `NoAudioReceived`, which is a different error
from the transport `WebSocketError`. -/
theorem c6_no_audio :
    (∀ (a : ConnAttempt) (out : List (List Nat)),
        runStream a = (out, none) → out ≠ [] ∧ ∀ p ∈ out, p ≠ []) ∧
    runStream ⟨[.text turnEndFrame], none⟩ = ([], some .noAudioReceived) ∧
    runStream ⟨[], none⟩ = ([], some .noAudioReceived) ∧
    ∀ (info : List Nat),
      StreamErr.noAudioReceived ≠ StreamErr.webSocketError info := by
  refine ⟨?_, by decide, by decide, fun info h => by cases h⟩
  intro a out hrun
  exact streamLoop_ok_nonempty a.msgs a.postError false [] out
    (by simp) (by simp) hrun

/-- Witness for C6 at a concrete successful session. -/
theorem c6_no_audio_witness :
    runStream okAttempt = ([[77]], none) ∧
    ([[77]] : List (List Nat)) ≠ [] ∧ ∀ p ∈ [[77]], p ≠ ([] : List Nat) :=
  ⟨by decide, c6_no_audio.1 okAttempt [[77]] (by decide)⟩

/-! ### Frame-codec lemmas for C2 -/

/-- A prefix check against `l ++ x` only inspects `l` when `l` is at
least as long as the pattern. -/
theorem isPrefixOf_append_left (p l x : List Nat) (h : p.length ≤ l.length) :
    (p.isPrefixOf (l ++ x)) = (p.isPrefixOf l) := by
  induction p generalizing l with
  | nil => simp [List.isPrefixOf]
  | cons a p ih =>
      cases l with
      | nil => simp at h
      | cons b l =>
          simp only [List.cons_append, List.isPrefixOf, List.append_eq]
          rw [ih l (by simpa using h)]

/-- `findSub` steps over a non-matching head byte. -/
theorem findSub_cons_ne (pat : List Nat) (c : Nat) (l : List Nat)
    (h : ¬ pat.isPrefixOf (c :: l)) :
    findSub pat (c :: l) = (findSub pat l).map (· + 1) := by
  simp [findSub, h]

/-- The first blank line of a CR-free line followed by CRLF CRLF is at
the end of the line. -/
theorem findSub_blank_at (l body : List Nat) (h : 13 ∉ l) :
    findSub [13, 10, 13, 10] (l ++ 13 :: 10 :: 13 :: 10 :: body) =
      some l.length := by
  induction l with
  | nil => simp [findSub, List.isPrefixOf]
  | cons c l ih =>
      have hc : c ≠ 13 := fun hh => h (hh ▸ List.mem_cons_self c l)
      have hpre : ¬ ([13, 10, 13, 10].isPrefixOf
          (c :: (l ++ 13 :: 10 :: 13 :: 10 :: body))) := by
        simp [List.isPrefixOf, Ne.symm hc]
      rw [List.cons_append, findSub_cons_ne _ _ _ hpre,
        ih (fun hh => h (List.mem_cons_of_mem c hh))]
      simp

/-- Searching for the blank line skips a CR-free line and its CRLF when
the remainder does not immediately continue the blank pattern. -/
theorem findSub_blank_skip (l rest : List Nat) (h : 13 ∉ l)
    (hr : ¬ ([13, 10].isPrefixOf rest)) :
    findSub [13, 10, 13, 10] (l ++ 13 :: 10 :: rest) =
      (findSub [13, 10, 13, 10] rest).map (· + (l.length + 2)) := by
  induction l with
  | nil =>
      have h1 : ¬ ([13, 10, 13, 10].isPrefixOf (13 :: 10 :: rest)) := by
        simpa [List.isPrefixOf] using hr
      have h2 : ¬ ([13, 10, 13, 10].isPrefixOf (10 :: rest)) := by
        simp [List.isPrefixOf]
      rw [List.nil_append, findSub_cons_ne _ _ _ h1, findSub_cons_ne _ _ _ h2]
      cases findSub [13, 10, 13, 10] rest <;> simp
  | cons c l ih =>
      have hc : c ≠ 13 := fun hh => h (hh ▸ List.mem_cons_self c l)
      have hpre : ¬ ([13, 10, 13, 10].isPrefixOf
          (c :: (l ++ 13 :: 10 :: rest))) := by
        simp [List.isPrefixOf, Ne.symm hc]
      rw [List.cons_append, findSub_cons_ne _ _ _ hpre,
        ih (fun hh => h (List.mem_cons_of_mem c hh))]
      cases findSub [13, 10, 13, 10] rest <;> simp
      omega

/-- `splitCRLF` keeps a non-CR head byte on the first fragment. -/
theorem splitCRLF_cons_ne (c : Nat) (l : List Nat) (hc : c ≠ 13) :
    splitCRLF (c :: l) = consHead c (splitCRLF l) := by
  cases l with
  | nil => simp [splitCRLF, consHead]
  | cons d rest => simp [splitCRLF, hc]

/-- `splitCRLF` cuts a CR-free line at its terminating CRLF. -/
theorem splitCRLF_append_crlf (l rest : List Nat) (h : 13 ∉ l) :
    splitCRLF (l ++ 13 :: 10 :: rest) = l :: splitCRLF rest := by
  induction l with
  | nil => simp [splitCRLF]
  | cons c l ih =>
      have hc : c ≠ 13 := fun hh => h (hh ▸ List.mem_cons_self c l)
      rw [List.cons_append, splitCRLF_cons_ne _ _ hc,
        ih (fun hh => h (List.mem_cons_of_mem c hh))]
      rfl

/-- `splitCRLF` of a CR-free byte string is that single line. -/
theorem splitCRLF_no_cr (l : List Nat) (h : 13 ∉ l) :
    splitCRLF l = [l] := by
  induction l with
  | nil => rfl
  | cons c l ih =>
      have hc : c ≠ 13 := fun hh => h (hh ▸ List.mem_cons_self c l)
      rw [splitCRLF_cons_ne _ _ hc,
        ih (fun hh => h (List.mem_cons_of_mem c hh))]
      rfl

/-- `splitColon1` splits at the first colon. -/
theorem splitColon1_append (k v : List Nat) (h : 58 ∉ k) :
    splitColon1 (k ++ 58 :: v) = some (k, v) := by
  induction k with
  | nil => simp [splitColon1]
  | cons c k ih =>
      have hc : c ≠ 58 := fun hh => h (hh ▸ List.mem_cons_self c k)
      rw [List.cons_append]
      simp [splitColon1, hc, ih (fun hh => h (List.mem_cons_of_mem c hh))]

/-- Decoding an encoded payload message recovers the header map exactly
and the body with one CRLF prefixed (helper for C2). -/
theorem payload_decode (rid ts ssml : List Nat)
    (hr : (13 : Nat) ∉ rid) (ht : (13 : Nat) ∉ ts) :
    decodeTextMessage (ssml_headers_plus_data rid ts ssml) =
      some ([(asciiBytes "X-RequestId", rid),
             (asciiBytes "Content-Type", asciiBytes "application/ssml+xml"),
             (asciiBytes "X-Timestamp", ts ++ asciiBytes "Z"),
             (asciiBytes "Path", asciiBytes "ssml")],
            13 :: 10 :: ssml) := by
  have h13_1 : (13 : Nat) ∉ asciiBytes "X-RequestId:" ++ rid := by
    intro hmem
    rcases List.mem_append.mp hmem with h' | h'
    · exact absurd h' (by decide)
    · exact hr h'
  have h13_2 : (13 : Nat) ∉ asciiBytes "Content-Type:application/ssml+xml" := by
    decide
  have h13_3 : (13 : Nat) ∉ asciiBytes "X-Timestamp:" ++ (ts ++ asciiBytes "Z") := by
    intro hmem
    rcases List.mem_append.mp hmem with h' | h'
    · exact absurd h' (by decide)
    · rcases List.mem_append.mp h' with h'' | h''
      · exact ht h''
      · exact absurd h'' (by decide)
  have h13_4 : (13 : Nat) ∉ asciiBytes "Path:ssml" := by decide
  have e1 : asciiBytes "\r\nContent-Type:application/ssml+xml\r\nX-Timestamp:" =
      [13, 10] ++ asciiBytes "Content-Type:application/ssml+xml" ++
        ([13, 10] ++ asciiBytes "X-Timestamp:") := by decide
  have e2 : asciiBytes "Z\r\nPath:ssml\r\n\r\n" =
      asciiBytes "Z" ++
        ([13, 10] ++ (asciiBytes "Path:ssml" ++ [13, 10, 13, 10])) := by decide
  have hshape : ssml_headers_plus_data rid ts ssml =
      (asciiBytes "X-RequestId:" ++ rid) ++ 13 :: 10 ::
        (asciiBytes "Content-Type:application/ssml+xml" ++ 13 :: 10 ::
          ((asciiBytes "X-Timestamp:" ++ (ts ++ asciiBytes "Z")) ++ 13 :: 10 ::
            (asciiBytes "Path:ssml" ++ 13 :: 10 :: 13 :: 10 :: ssml))) := by
    rw [ssml_headers_plus_data, e1, e2]
    simp [List.append_assoc]
  have hp2 : ∀ X : List Nat,
      ¬ ([13, 10].isPrefixOf
        (asciiBytes "Content-Type:application/ssml+xml" ++ X)) := by
    intro X
    rw [isPrefixOf_append_left _ _ _ (by decide)]
    decide
  have hp3 : ∀ X : List Nat,
      ¬ ([13, 10].isPrefixOf
        ((asciiBytes "X-Timestamp:" ++ (ts ++ asciiBytes "Z")) ++ X)) := by
    intro X
    rw [List.append_assoc, isPrefixOf_append_left _ _ _ (by decide)]
    decide
  have hp4 : ∀ X : List Nat,
      ¬ ([13, 10].isPrefixOf (asciiBytes "Path:ssml" ++ X)) := by
    intro X
    rw [isPrefixOf_append_left _ _ _ (by decide)]
    decide
  have hfind : findSub [13, 10, 13, 10] (ssml_headers_plus_data rid ts ssml) =
      some ((asciiBytes "Path:ssml").length +
        ((asciiBytes "X-Timestamp:" ++ (ts ++ asciiBytes "Z")).length + 2) +
        ((asciiBytes "Content-Type:application/ssml+xml").length + 2) +
        ((asciiBytes "X-RequestId:" ++ rid).length + 2)) := by
    rw [hshape,
      findSub_blank_skip _ _ h13_1 (hp2 _),
      findSub_blank_skip _ _ h13_2 (hp3 _),
      findSub_blank_skip _ _ h13_3 (hp4 _),
      findSub_blank_at _ _ h13_4]
    rfl
  have hsplit : splitCRLF
      ((asciiBytes "X-RequestId:" ++ rid) ++ 13 :: 10 ::
        (asciiBytes "Content-Type:application/ssml+xml" ++ 13 :: 10 ::
          ((asciiBytes "X-Timestamp:" ++ (ts ++ asciiBytes "Z")) ++ 13 :: 10 ::
            asciiBytes "Path:ssml"))) =
      [asciiBytes "X-RequestId:" ++ rid,
       asciiBytes "Content-Type:application/ssml+xml",
       asciiBytes "X-Timestamp:" ++ (ts ++ asciiBytes "Z"),
       asciiBytes "Path:ssml"] := by
    rw [splitCRLF_append_crlf _ _ h13_1, splitCRLF_append_crlf _ _ h13_2,
      splitCRLF_append_crlf _ _ h13_3, splitCRLF_no_cr _ h13_4]
  have s1 : splitColon1 (asciiBytes "X-RequestId:" ++ rid) =
      some (asciiBytes "X-RequestId", rid) := by
    rw [show asciiBytes "X-RequestId:" =
        asciiBytes "X-RequestId" ++ [58] from by decide, List.append_assoc]
    exact splitColon1_append _ _ (by decide)
  have s2 : splitColon1 (asciiBytes "Content-Type:application/ssml+xml") =
      some (asciiBytes "Content-Type", asciiBytes "application/ssml+xml") := by
    decide
  have s3 : splitColon1 (asciiBytes "X-Timestamp:" ++ (ts ++ asciiBytes "Z")) =
      some (asciiBytes "X-Timestamp", ts ++ asciiBytes "Z") := by
    rw [show asciiBytes "X-Timestamp:" =
        asciiBytes "X-Timestamp" ++ [58] from by decide, List.append_assoc]
    exact splitColon1_append _ _ (by decide)
  have s4 : splitColon1 (asciiBytes "Path:ssml") =
      some (asciiBytes "Path", asciiBytes "ssml") := by decide
  have hbuild : buildHeaders
      [asciiBytes "X-RequestId:" ++ rid,
       asciiBytes "Content-Type:application/ssml+xml",
       asciiBytes "X-Timestamp:" ++ (ts ++ asciiBytes "Z"),
       asciiBytes "Path:ssml"] [] =
      some [(asciiBytes "X-RequestId", rid),
            (asciiBytes "Content-Type", asciiBytes "application/ssml+xml"),
            (asciiBytes "X-Timestamp", ts ++ asciiBytes "Z"),
            (asciiBytes "Path", asciiBytes "ssml")] := by
    simp only [buildHeaders, s1, s2, s3, s4]
    simp [dictInsert,
      (by decide : ¬ (asciiBytes "X-RequestId" = asciiBytes "Content-Type")),
      (by decide : ¬ (asciiBytes "X-RequestId" = asciiBytes "X-Timestamp")),
      (by decide : ¬ (asciiBytes "X-RequestId" = asciiBytes "Path")),
      (by decide : ¬ (asciiBytes "Content-Type" = asciiBytes "X-Timestamp")),
      (by decide : ¬ (asciiBytes "Content-Type" = asciiBytes "Path")),
      (by decide : ¬ (asciiBytes "X-Timestamp" = asciiBytes "Path"))]
  have hlen : ((asciiBytes "X-RequestId:" ++ rid) ++ 13 :: 10 ::
      (asciiBytes "Content-Type:application/ssml+xml" ++ 13 :: 10 ::
        ((asciiBytes "X-Timestamp:" ++ (ts ++ asciiBytes "Z")) ++ 13 :: 10 ::
          asciiBytes "Path:ssml"))).length =
      (asciiBytes "Path:ssml").length +
        ((asciiBytes "X-Timestamp:" ++ (ts ++ asciiBytes "Z")).length + 2) +
        ((asciiBytes "Content-Type:application/ssml+xml").length + 2) +
        ((asciiBytes "X-RequestId:" ++ rid).length + 2) := by
    simp [List.length_append]
    omega
  have hassoc : ssml_headers_plus_data rid ts ssml =
      ((asciiBytes "X-RequestId:" ++ rid) ++ 13 :: 10 ::
        (asciiBytes "Content-Type:application/ssml+xml" ++ 13 :: 10 ::
          ((asciiBytes "X-Timestamp:" ++ (ts ++ asciiBytes "Z")) ++ 13 :: 10 ::
            asciiBytes "Path:ssml"))) ++ 13 :: 10 :: 13 :: 10 :: ssml := by
    rw [hshape]
    simp [List.append_assoc]
  have hassoc2 : ssml_headers_plus_data rid ts ssml =
      (((asciiBytes "X-RequestId:" ++ rid) ++ 13 :: 10 ::
        (asciiBytes "Content-Type:application/ssml+xml" ++ 13 :: 10 ::
          ((asciiBytes "X-Timestamp:" ++ (ts ++ asciiBytes "Z")) ++ 13 :: 10 ::
            asciiBytes "Path:ssml"))) ++ [13, 10]) ++ 13 :: 10 :: ssml := by
    rw [hassoc]
    simp [List.append_assoc]
  have htake : pySliceTo
      (((asciiBytes "Path:ssml").length +
        ((asciiBytes "X-Timestamp:" ++ (ts ++ asciiBytes "Z")).length + 2) +
        ((asciiBytes "Content-Type:application/ssml+xml").length + 2) +
        ((asciiBytes "X-RequestId:" ++ rid).length + 2) : Nat) : Int)
      (ssml_headers_plus_data rid ts ssml) =
      (asciiBytes "X-RequestId:" ++ rid) ++ 13 :: 10 ::
        (asciiBytes "Content-Type:application/ssml+xml" ++ 13 :: 10 ::
          ((asciiBytes "X-Timestamp:" ++ (ts ++ asciiBytes "Z")) ++ 13 :: 10 ::
            asciiBytes "Path:ssml")) := by
    rw [pySliceTo, if_pos (by positivity), Int.toNat_natCast, hassoc]
    exact List.take_left' hlen
  have hdrop : pySliceFrom
      ((((asciiBytes "Path:ssml").length +
        ((asciiBytes "X-Timestamp:" ++ (ts ++ asciiBytes "Z")).length + 2) +
        ((asciiBytes "Content-Type:application/ssml+xml").length + 2) +
        ((asciiBytes "X-RequestId:" ++ rid).length + 2) : Nat) : Int) + 2)
      (ssml_headers_plus_data rid ts ssml) = 13 :: 10 :: ssml := by
    have hcast : ∀ H : Nat, ((H : Int) + 2) = ((H + 2 : Nat) : Int) := by
      intro H
      push_cast
      ring
    rw [hcast, pySliceFrom, if_pos (by positivity), Int.toNat_natCast, hassoc2]
    refine List.drop_left' ?_
    simp
    omega
  have hdec : decodeTextMessage (ssml_headers_plus_data rid ts ssml) =
      get_headers_and_data (ssml_headers_plus_data rid ts ssml)
        ((asciiBytes "Path:ssml").length +
          ((asciiBytes "X-Timestamp:" ++ (ts ++ asciiBytes "Z")).length + 2) +
          ((asciiBytes "Content-Type:application/ssml+xml").length + 2) +
          ((asciiBytes "X-RequestId:" ++ rid).length + 2) : Nat) := by
    rw [decodeTextMessage, hfind]
  rw [hdec, get_headers_and_data, htake, hsplit, hbuild]
  simp only [Option.map]
  rw [hdrop]

/-- Decoding an encoded configuration message recovers the header map
exactly and the JSON body with one CRLF prefixed (helper for C2). -/
theorem config_decode (ts fmt : List Nat) (ht : (13 : Nat) ∉ ts) :
    decodeTextMessage (speech_config_message ts fmt) =
      some ([(asciiBytes "X-Timestamp", ts),
             (asciiBytes "Content-Type",
              asciiBytes "application/json; charset=utf-8"),
             (asciiBytes "Path", asciiBytes "speech.config")],
            13 :: 10 :: speech_config_body fmt) := by
  have h13_1 : (13 : Nat) ∉ asciiBytes "X-Timestamp:" ++ ts := by
    intro hmem
    rcases List.mem_append.mp hmem with h' | h'
    · exact absurd h' (by decide)
    · exact ht h'
  have h13_2 : (13 : Nat) ∉
      asciiBytes "Content-Type:application/json; charset=utf-8" := by
    decide
  have h13_3 : (13 : Nat) ∉ asciiBytes "Path:speech.config" := by decide
  have e1 : asciiBytes
      "\r\nContent-Type:application/json; charset=utf-8\r\nPath:speech.config\r\n\r\n" =
      [13, 10] ++ asciiBytes "Content-Type:application/json; charset=utf-8" ++
        ([13, 10] ++ (asciiBytes "Path:speech.config" ++ [13, 10, 13, 10])) := by
    decide
  have hshape : speech_config_message ts fmt =
      (asciiBytes "X-Timestamp:" ++ ts) ++ 13 :: 10 ::
        (asciiBytes "Content-Type:application/json; charset=utf-8" ++ 13 :: 10 ::
          (asciiBytes "Path:speech.config" ++
            13 :: 10 :: 13 :: 10 :: speech_config_body fmt)) := by
    rw [speech_config_message, e1]
    simp [List.append_assoc]
  have hp2 : ∀ X : List Nat,
      ¬ ([13, 10].isPrefixOf
        (asciiBytes "Content-Type:application/json; charset=utf-8" ++ X)) := by
    intro X
    rw [isPrefixOf_append_left _ _ _ (by decide)]
    decide
  have hp3 : ∀ X : List Nat,
      ¬ ([13, 10].isPrefixOf (asciiBytes "Path:speech.config" ++ X)) := by
    intro X
    rw [isPrefixOf_append_left _ _ _ (by decide)]
    decide
  have hfind : findSub [13, 10, 13, 10] (speech_config_message ts fmt) =
      some ((asciiBytes "Path:speech.config").length +
        ((asciiBytes "Content-Type:application/json; charset=utf-8").length + 2) +
        ((asciiBytes "X-Timestamp:" ++ ts).length + 2)) := by
    rw [hshape,
      findSub_blank_skip _ _ h13_1 (hp2 _),
      findSub_blank_skip _ _ h13_2 (hp3 _),
      findSub_blank_at _ _ h13_3]
    rfl
  have hsplit : splitCRLF
      ((asciiBytes "X-Timestamp:" ++ ts) ++ 13 :: 10 ::
        (asciiBytes "Content-Type:application/json; charset=utf-8" ++ 13 :: 10 ::
          asciiBytes "Path:speech.config")) =
      [asciiBytes "X-Timestamp:" ++ ts,
       asciiBytes "Content-Type:application/json; charset=utf-8",
       asciiBytes "Path:speech.config"] := by
    rw [splitCRLF_append_crlf _ _ h13_1, splitCRLF_append_crlf _ _ h13_2,
      splitCRLF_no_cr _ h13_3]
  have s1 : splitColon1 (asciiBytes "X-Timestamp:" ++ ts) =
      some (asciiBytes "X-Timestamp", ts) := by
    rw [show asciiBytes "X-Timestamp:" =
        asciiBytes "X-Timestamp" ++ [58] from by decide, List.append_assoc]
    exact splitColon1_append _ _ (by decide)
  have s2 : splitColon1
      (asciiBytes "Content-Type:application/json; charset=utf-8") =
      some (asciiBytes "Content-Type",
        asciiBytes "application/json; charset=utf-8") := by decide
  have s3 : splitColon1 (asciiBytes "Path:speech.config") =
      some (asciiBytes "Path", asciiBytes "speech.config") := by decide
  have hbuild : buildHeaders
      [asciiBytes "X-Timestamp:" ++ ts,
       asciiBytes "Content-Type:application/json; charset=utf-8",
       asciiBytes "Path:speech.config"] [] =
      some [(asciiBytes "X-Timestamp", ts),
            (asciiBytes "Content-Type",
             asciiBytes "application/json; charset=utf-8"),
            (asciiBytes "Path", asciiBytes "speech.config")] := by
    simp only [buildHeaders, s1, s2, s3]
    simp [dictInsert,
      (by decide : ¬ (asciiBytes "X-Timestamp" = asciiBytes "Content-Type")),
      (by decide : ¬ (asciiBytes "X-Timestamp" = asciiBytes "Path")),
      (by decide : ¬ (asciiBytes "Content-Type" = asciiBytes "Path"))]
  have hlen : ((asciiBytes "X-Timestamp:" ++ ts) ++ 13 :: 10 ::
      (asciiBytes "Content-Type:application/json; charset=utf-8" ++ 13 :: 10 ::
        asciiBytes "Path:speech.config")).length =
      (asciiBytes "Path:speech.config").length +
        ((asciiBytes "Content-Type:application/json; charset=utf-8").length + 2) +
        ((asciiBytes "X-Timestamp:" ++ ts).length + 2) := by
    simp [List.length_append]
    omega
  have hassoc : speech_config_message ts fmt =
      ((asciiBytes "X-Timestamp:" ++ ts) ++ 13 :: 10 ::
        (asciiBytes "Content-Type:application/json; charset=utf-8" ++ 13 :: 10 ::
          asciiBytes "Path:speech.config")) ++
        13 :: 10 :: 13 :: 10 :: speech_config_body fmt := by
    rw [hshape]
    simp [List.append_assoc]
  have hassoc2 : speech_config_message ts fmt =
      (((asciiBytes "X-Timestamp:" ++ ts) ++ 13 :: 10 ::
        (asciiBytes "Content-Type:application/json; charset=utf-8" ++ 13 :: 10 ::
          asciiBytes "Path:speech.config")) ++ [13, 10]) ++
        13 :: 10 :: speech_config_body fmt := by
    rw [hassoc]
    simp [List.append_assoc]
  have htake : pySliceTo
      (((asciiBytes "Path:speech.config").length +
        ((asciiBytes "Content-Type:application/json; charset=utf-8").length + 2) +
        ((asciiBytes "X-Timestamp:" ++ ts).length + 2) : Nat) : Int)
      (speech_config_message ts fmt) =
      (asciiBytes "X-Timestamp:" ++ ts) ++ 13 :: 10 ::
        (asciiBytes "Content-Type:application/json; charset=utf-8" ++ 13 :: 10 ::
          asciiBytes "Path:speech.config") := by
    rw [pySliceTo, if_pos (by positivity), Int.toNat_natCast, hassoc]
    exact List.take_left' hlen
  have hdrop : pySliceFrom
      ((((asciiBytes "Path:speech.config").length +
        ((asciiBytes "Content-Type:application/json; charset=utf-8").length + 2) +
        ((asciiBytes "X-Timestamp:" ++ ts).length + 2) : Nat) : Int) + 2)
      (speech_config_message ts fmt) = 13 :: 10 :: speech_config_body fmt := by
    have hcast : ∀ H : Nat, ((H : Int) + 2) = ((H + 2 : Nat) : Int) := by
      intro H
      push_cast
      ring
    rw [hcast, pySliceFrom, if_pos (by positivity), Int.toNat_natCast, hassoc2]
    refine List.drop_left' ?_
    simp
    omega
  have hdec : decodeTextMessage (speech_config_message ts fmt) =
      get_headers_and_data (speech_config_message ts fmt)
        ((asciiBytes "Path:speech.config").length +
          ((asciiBytes "Content-Type:application/json; charset=utf-8").length + 2) +
          ((asciiBytes "X-Timestamp:" ++ ts).length + 2) : Nat) := by
    rw [decodeTextMessage, hfind]
  rw [hdec, get_headers_and_data, htake, hsplit, hbuild]
  simp only [Option.map]
  rw [hdrop]

/-- C2 (amended): decoding an encoded config or payload message at the
session's first blank-line boundary recovers the original header map
exactly — for the payload frame `X-RequestId` ↦ request id,
`Content-Type` ↦ `application/ssml+xml`, `X-Timestamp` ↦ timestamp with
its appended `Z`, `Path` ↦ `ssml`; for the config frame `X-Timestamp`
↦ timestamp, `Content-Type` ↦ `application/json; charset=utf-8`,
`Path` ↦ `speech.config` — but in both cases the decoded body is the
original body with one CRLF prefixed: the codec's body slice starts two
bytes after the header end, keeping half of the blank-line separator.
Holds for every output format string, SSML body, and CR-free request id
and timestamp. -/
theorem c2_roundtrip_amended :
    (∀ rid ts ssml : List Nat, (13 : Nat) ∉ rid → (13 : Nat) ∉ ts →
      decodeTextMessage (ssml_headers_plus_data rid ts ssml) =
        some ([(asciiBytes "X-RequestId", rid),
               (asciiBytes "Content-Type", asciiBytes "application/ssml+xml"),
               (asciiBytes "X-Timestamp", ts ++ asciiBytes "Z"),
               (asciiBytes "Path", asciiBytes "ssml")],
              13 :: 10 :: ssml)) ∧
    (∀ ts fmt : List Nat, (13 : Nat) ∉ ts →
      decodeTextMessage (speech_config_message ts fmt) =
        some ([(asciiBytes "X-Timestamp", ts),
               (asciiBytes "Content-Type",
                asciiBytes "application/json; charset=utf-8"),
               (asciiBytes "Path", asciiBytes "speech.config")],
              13 :: 10 :: speech_config_body fmt)) :=
  ⟨payload_decode, config_decode⟩

/-- Witness for C2 (amended) at concrete components of both frame
kinds. -/
theorem c2_roundtrip_amended_witness :
    decodeTextMessage
      (ssml_headers_plus_data (asciiBytes "abc") (asciiBytes "T")
        (asciiBytes "hi")) =
      some ([(asciiBytes "X-RequestId", asciiBytes "abc"),
             (asciiBytes "Content-Type", asciiBytes "application/ssml+xml"),
             (asciiBytes "X-Timestamp", asciiBytes "T" ++ asciiBytes "Z"),
             (asciiBytes "Path", asciiBytes "ssml")],
            13 :: 10 :: asciiBytes "hi") ∧
    decodeTextMessage
      (speech_config_message (asciiBytes "T") (asciiBytes "mp3")) =
      some ([(asciiBytes "X-Timestamp", asciiBytes "T"),
             (asciiBytes "Content-Type",
              asciiBytes "application/json; charset=utf-8"),
             (asciiBytes "Path", asciiBytes "speech.config")],
            13 :: 10 :: speech_config_body (asciiBytes "mp3")) :=
  ⟨c2_roundtrip_amended.1 (asciiBytes "abc") (asciiBytes "T")
      (asciiBytes "hi") (by decide) (by decide),
   c2_roundtrip_amended.2 (asciiBytes "T") (asciiBytes "mp3") (by decide)⟩

/-- C2 (counterexample): at the concrete request id `abc`, timestamp
`T` and body `hi`, the decoded body is `\r\nhi`, not the original `hi`
— the encode/decode round trip is not the identity on the body. -/
theorem c2_roundtrip_counterexample :
    decodeTextMessage
      (ssml_headers_plus_data (asciiBytes "abc") (asciiBytes "T")
        (asciiBytes "hi")) =
      some ([(asciiBytes "X-RequestId", asciiBytes "abc"),
             (asciiBytes "Content-Type", asciiBytes "application/ssml+xml"),
             (asciiBytes "X-Timestamp", asciiBytes "T" ++ asciiBytes "Z"),
             (asciiBytes "Path", asciiBytes "ssml")],
            asciiBytes "\r\nhi") ∧
    asciiBytes "\r\nhi" ≠ asciiBytes "hi" := by
  decide

/-! ### Chunker lemmas for C3 -/

/-- Stripping only shortens. -/
theorem pyStrip_length_le (l : List Char) : (pyStrip l).length ≤ l.length := by
  refine le_trans (List.IsPrefix.length_le (List.rdropWhile_prefix _ _)) ?_
  simpa using List.IsSuffix.length_le (List.dropWhile_suffix isPySpace)

/-- `dropWhile` only removes characters the predicate accepts, so the
complement filter is unchanged. -/
theorem filter_not_dropWhile (p : Char → Bool) (l : List Char) :
    (l.dropWhile p).filter (fun c => !p c) = l.filter (fun c => !p c) := by
  induction l with
  | nil => rfl
  | cons c rest ih =>
      by_cases hc : p c
      · simp [List.dropWhile_cons, hc, ih]
      · simp [List.dropWhile_cons, hc]

/-- Stripping preserves every non-whitespace character, in order. -/
theorem filter_pyStrip (l : List Char) :
    (pyStrip l).filter (fun c => !isPySpace c) =
      l.filter (fun c => !isPySpace c) := by
  rw [pyStrip, List.rdropWhile, List.filter_reverse,
    filter_not_dropWhile, List.filter_reverse, List.reverse_reverse,
    filter_not_dropWhile]

/-- A stripped string is empty exactly when every character is
whitespace. -/
theorem pyStrip_eq_nil_iff (l : List Char) :
    pyStrip l = [] ↔ ∀ c ∈ l, isPySpace c := by
  rw [pyStrip, List.rdropWhile_eq_nil_iff]
  constructor
  · intro h c hc
    rcases List.mem_append.mp
        ((List.takeWhile_append_dropWhile (p := isPySpace) (l := l)) ▸ hc)
      with h' | h'
    · exact List.mem_takeWhile_imp h'
    · exact h c h'
  · intro h c hc
    exact h c (List.IsSuffix.mem hc (List.dropWhile_suffix isPySpace))

/-- The head surviving `dropWhile` fails the predicate. -/
theorem dropWhile_head_not (p : Char → Bool) :
    ∀ (l : List Char) (c : Char), (l.dropWhile p).head? = some c →
      p c = false := by
  intro l
  induction l with
  | nil => intro c h; simp at h
  | cons a rest ih =>
      intro c h
      by_cases ha : p a
      · exact ih c (by simpa [List.dropWhile_cons, ha] using h)
      · rw [List.dropWhile_cons, if_neg ha] at h
        cases h
        simpa using ha

/-- A non-empty prefix has the same head. -/
theorem isPrefix_head? {α : Type} (l₁ l₂ : List α) (c : α)
    (h : l₁ <+: l₂) (hc : l₁.head? = some c) : l₂.head? = some c := by
  obtain ⟨t, rfl⟩ := h
  cases l₁ with
  | nil => simp at hc
  | cons a l => simpa using hc

/-- The head of a stripped string is not whitespace. -/
theorem pyStrip_head_not (l : List Char) (c : Char)
    (h : (pyStrip l).head? = some c) : isPySpace c = false := by
  exact dropWhile_head_not isPySpace l c
    (isPrefix_head? _ _ _ (List.rdropWhile_prefix _ _) h)

/-- `rfindAux` results are bounded by the best seen and the last
possible match position. -/
theorem rfindAux_le (pat : List Char) :
    ∀ (l : List Char) (i : Nat) (best : Int),
      rfindAux pat i best l ≤
        max best ((i : Int) + l.length - pat.length) := by
  intro l
  induction l with
  | nil => intro i best; simp only [rfindAux]; exact le_max_left _ _
  | cons c rest ih =>
      intro i best
      rw [rfindAux]
      refine le_trans (ih (i + 1) _) ?_
      have hlen : ((i + 1 : Nat) : Int) + rest.length - pat.length =
          (i : Int) + (c :: rest).length - pat.length := by
        simp
        omega
      rw [hlen]
      by_cases hp : pat.isPrefixOf (c :: rest)
      · rw [if_pos hp]
        have hle : pat.length ≤ (c :: rest).length :=
          List.IsPrefix.length_le (List.isPrefixOf_iff_prefix.mp hp)
        have hT : (i : Int) ≤ (i : Int) + (c :: rest).length - pat.length := by
          have : (pat.length : Int) ≤ ((c :: rest).length : Int) := by
            exact_mod_cast hle
          omega
        exact max_le (le_trans hT (le_max_right _ _)) (le_max_right _ _)
      · rw [if_neg hp]

/-- An `rfindAux` run either keeps its running best or reports a
position at or beyond the current index. -/
theorem rfindAux_cases (pat : List Char) :
    ∀ (l : List Char) (i : Nat) (best : Int),
      rfindAux pat i best l = best ∨ (i : Int) ≤ rfindAux pat i best l := by
  intro l
  induction l with
  | nil => intro i best; left; rfl
  | cons c rest ih =>
      intro i best
      rw [rfindAux]
      rcases ih (i + 1) (if pat.isPrefixOf (c :: rest) then (i : Int)
        else best) with h | h
      · rw [h]
        by_cases hp : pat.isPrefixOf (c :: rest)
        · right
          rw [if_pos hp]
        · left
          rw [if_neg hp]
      · right
        refine le_trans ?_ h
        exact_mod_cast Nat.le_succ i

/-- `rfind` returns `-1` or a valid index. -/
theorem rfind_cases (s pat : List Char) :
    rfind s pat = -1 ∨ 0 ≤ rfind s pat := by
  simpa [rfind] using rfindAux_cases pat s 0 (-1)

/-- `rfind` never exceeds the last possible match position. -/
theorem rfind_le (s pat : List Char) :
    rfind s pat ≤ max (-1) ((s.length : Int) - pat.length) := by
  simpa [rfind] using rfindAux_le pat s 0 (-1)

/-- A zero result of `rfindAux` is either the incoming best or a match
at position zero. -/
theorem rfindAux_zero (pat : List Char) :
    ∀ (l : List Char) (i : Nat) (best : Int),
      rfindAux pat i best l = 0 →
        best = 0 ∨ (i = 0 ∧ pat.isPrefixOf l) := by
  intro l
  induction l with
  | nil => intro i best h; left; exact h
  | cons c rest ih =>
      intro i best h
      rw [rfindAux] at h
      rcases ih (i + 1) _ h with h' | h'
      · by_cases hp : pat.isPrefixOf (c :: rest)
        · rw [if_pos hp] at h'
          right
          have : i = 0 := by exact_mod_cast h'
          exact ⟨this, hp⟩
        · rw [if_neg hp] at h'
          exact Or.inl h'
      · exact absurd h'.1 (Nat.succ_ne_zero i)

/-- A single-character pattern found last at position zero is the head
of the string. -/
theorem rfind_single_zero (l : List Char) (c : Char)
    (h : rfind l [c] = 0) : l.head? = some c := by
  rcases rfindAux_zero [c] l 0 (-1) h with h' | h'
  · simp at h'
  · have := List.isPrefixOf_iff_prefix.mp h'.2
    obtain ⟨t, rfl⟩ := this
    rfl

/-- The terminator fold keeps its accumulator or yields a split point
in `[1, |limit| - 1]`. -/
theorem termFold_cases (limit : List Char) :
    ∀ (pats : List (List Char)) (acc : Int),
      (∀ p ∈ pats, p.length = 2) →
      List.foldl (termStep limit) acc pats = acc ∨
        (1 ≤ List.foldl (termStep limit) acc pats ∧
         List.foldl (termStep limit) acc pats ≤ (limit.length : Int) - 1) := by
  intro pats
  induction pats with
  | nil => intro acc _; left; rfl
  | cons pat pats ih =>
      intro acc h
      rw [List.foldl_cons]
      have hpat : pat.length = 2 := h pat (List.mem_cons_self pat pats)
      have hrest : ∀ p ∈ pats, p.length = 2 :=
        fun p hp => h p (List.mem_cons_of_mem pat hp)
      rcases ih (termStep limit acc pat) hrest with h' | h'
      · rw [h']
        rw [termStep]
        by_cases hidx : rfind limit pat ≠ -1
        · rw [if_pos hidx]
          rcases rfind_cases limit pat with hc | hc
          · exact absurd hc hidx
          · have hub := le_max_iff.mp (rfind_le limit pat)
            by_cases hacc : rfind limit pat + 1 ≤ acc
            · left
              exact max_eq_left hacc
            · right
              have hmax : max acc (rfind limit pat + 1) =
                  rfind limit pat + 1 := max_eq_right (by omega)
              rw [hmax, hpat] at *
              constructor <;> omega
        · rw [if_neg hidx]
          left
          rfl
      · right
        exact h'

/-- The split point is either the hard cut at `max_chars` or a
position in `[0, |limit| - 1]`. -/
theorem chooseSplitIdx_le (limit : List Char) (m : Nat) :
    chooseSplitIdx limit m = (m : Int) ∨
      (0 ≤ chooseSplitIdx limit m ∧
       chooseSplitIdx limit m ≤ (limit.length : Int) - 1) := by
  have hfold := termFold_cases limit terminators (-1) (by decide)
  have hnl := rfind_cases limit ['\n']
  have hsp := rfind_cases limit [' ']
  have hnl2 := le_max_iff.mp (rfind_le limit ['\n'])
  have hsp2 := le_max_iff.mp (rfind_le limit [' '])
  simp only [List.length_singleton] at hnl2 hsp2
  simp only [chooseSplitIdx]
  split_ifs <;> omega

/-- When the split point is below 1 the window starts with whitespace
(`max_chars ≥ 1`). -/
theorem chooseSplitIdx_small (limit : List Char) (m : Nat)
    (hlt : chooseSplitIdx limit m < 1) (hm : 1 ≤ m) :
    ∃ c, limit.head? = some c ∧ isPySpace c = true := by
  have hfold := termFold_cases limit terminators (-1) (by decide)
  have hnl := rfind_cases limit ['\n']
  have hsp := rfind_cases limit [' ']
  simp only [chooseSplitIdx] at hlt
  split_ifs at hlt with h1 h2 h3
  · exfalso
    omega
  · have hz : rfind limit [' '] = 0 := by omega
    exact ⟨' ', rfind_single_zero limit ' ' hz, by decide⟩
  · have hz : rfind limit ['\n'] = 0 := by omega
    exact ⟨'\n', rfind_single_zero limit '\n' hz, by decide⟩
  · exfalso
    omega

/-- The split point, as a natural index, never exceeds `max_chars`. -/
theorem chooseSplit_toNat_le (limit : List Char) (m : Nat)
    (hlen : limit.length ≤ m) : (chooseSplitIdx limit m).toNat ≤ m := by
  rcases chooseSplitIdx_le limit m with h | ⟨h0, h1⟩
  · simp [h]
  · refine Int.toNat_le.mpr ?_
    have : (limit.length : Int) ≤ (m : Int) := by exact_mod_cast hlen
    omega

/-- Taking at least one character keeps the head. -/
theorem head?_take {α : Type} (n : Nat) (l : List α) (hn : 1 ≤ n) :
    (l.take n).head? = l.head? := by
  cases l with
  | nil => simp
  | cons a t =>
      cases n with
      | zero => omega
      | succ k => simp

/-- Each iteration of the chunking loop strictly shortens the residual
text (for `max_chars ≥ 1`). -/
theorem chunk_decrease (m : Nat) (hm : 1 ≤ m) (text : List Char)
    (hlen : text.length > m) :
    (pyStrip (text.drop (chooseSplitIdx (text.take m) m).toNat)).length <
      text.length := by
  by_cases h1 : 1 ≤ (chooseSplitIdx (text.take m) m).toNat
  · refine lt_of_le_of_lt (pyStrip_length_le _) ?_
    rw [List.length_drop]
    omega
  · have hlt : chooseSplitIdx (text.take m) m < 1 := by omega
    obtain ⟨c, hc, hws⟩ := chooseSplitIdx_small _ m hlt hm
    rw [head?_take m text hm] at hc
    cases text with
    | nil => simp at hlen
    | cons a rest =>
        have hac : a = c := by simpa using hc
        subst hac
        have hsi0 : (chooseSplitIdx ((a :: rest).take m) m).toNat = 0 := by
          omega
        rw [hsi0, List.drop_zero]
        have hstep : (pyStrip (a :: rest)).length ≤
            (List.dropWhile isPySpace rest).length := by
          refine le_trans
            (List.IsPrefix.length_le (List.rdropWhile_prefix _ _)) ?_
          rw [List.dropWhile_cons, if_pos hws]
        have hrest : (List.dropWhile isPySpace rest).length ≤ rest.length := by
          simpa using List.IsSuffix.length_le (List.dropWhile_suffix isPySpace)
        simp only [List.length_cons]
        omega

/-- Unfolding of the chunking loop when the text still exceeds the
window. -/
theorem chunkLoop_succ_gt (m fuel : Nat) (text : List Char)
    (h : text.length > m) :
    chunkLoop m (fuel + 1) text =
      pyStrip (text.take (chooseSplitIdx (text.take m) m).toNat) ::
        chunkLoop m fuel
          (pyStrip (text.drop (chooseSplitIdx (text.take m) m).toNat)) := by
  simp [chunkLoop, h]

/-- Unfolding of the chunking loop when the text fits the window. -/
theorem chunkLoop_succ_le (m fuel : Nat) (text : List Char)
    (h : ¬ text.length > m) :
    chunkLoop m (fuel + 1) text = if text ≠ [] then [text] else [] := by
  simp [chunkLoop, h]

/-- Invariants of the chunking loop, by induction on the fuel: chunks
never exceed `max_chars`; non-whitespace characters are preserved in
order; and when the text starts with a non-whitespace character all
chunks are non-empty. -/
theorem chunkLoop_props (m : Nat) (hm : 1 ≤ m) :
    ∀ (fuel : Nat) (text : List Char), text.length ≤ fuel →
      (∀ ch ∈ chunkLoop m fuel text, ch.length ≤ m) ∧
      (chunkLoop m fuel text).flatten.filter (fun c => !isPySpace c) =
        text.filter (fun c => !isPySpace c) ∧
      ((∀ c, text.head? = some c → isPySpace c = false) →
        ∀ ch ∈ chunkLoop m fuel text, ch ≠ []) := by
  intro fuel
  induction fuel with
  | zero =>
      intro text hlen
      have htext : text = [] := List.eq_nil_of_length_eq_zero (by omega)
      subst htext
      exact ⟨by simp [chunkLoop], by simp [chunkLoop], by simp [chunkLoop]⟩
  | succ fuel ih =>
      intro text hlen
      by_cases hgt : text.length > m
      · rw [chunkLoop_succ_gt m fuel text hgt]
        have hsile : (chooseSplitIdx (text.take m) m).toNat ≤ m :=
          chooseSplit_toNat_le _ m (by simp)
        have hdec : (pyStrip
            (text.drop (chooseSplitIdx (text.take m) m).toNat)).length <
            text.length := chunk_decrease m hm text hgt
        have hrec := ih
          (pyStrip (text.drop (chooseSplitIdx (text.take m) m).toNat))
          (by omega)
        refine ⟨?_, ?_, ?_⟩
        · intro ch hch
          rcases List.mem_cons.mp hch with rfl | hch'
          · refine le_trans (pyStrip_length_le _) ?_
            simp only [List.length_take]
            exact le_trans (Nat.min_le_left _ _) hsile
          · exact hrec.1 ch hch'
        · rw [List.flatten_cons, List.filter_append, filter_pyStrip,
            hrec.2.1, filter_pyStrip, ← List.filter_append,
            List.take_append_drop]
        · intro hhead ch hch
          have hpos : 1 ≤ chooseSplitIdx (text.take m) m := by
            by_contra hneg
            push_neg at hneg
            obtain ⟨c, hc, hws⟩ := chooseSplitIdx_small _ m hneg hm
            rw [head?_take m text hm] at hc
            rw [hhead c hc] at hws
            cases hws
          have hsi1 : 1 ≤ (chooseSplitIdx (text.take m) m).toNat := by
            omega
          rcases List.mem_cons.mp hch with rfl | hch'
          · intro hnil
            cases htext : text with
            | nil =>
                rw [htext] at hgt
                simp at hgt
            | cons a rest =>
                subst htext
                have hws : isPySpace a = false := hhead a rfl
                have hmem : a ∈ (a :: rest).take
                    (chooseSplitIdx ((a :: rest).take m) m).toNat := by
                  rcases Nat.exists_eq_add_of_le hsi1 with ⟨k, hk⟩
                  rw [hk, Nat.add_comm 1 k]
                  simp
                have := (pyStrip_eq_nil_iff _).mp hnil a hmem
                rw [hws] at this
                cases this
          · exact hrec.2.2
              (fun c hc => pyStrip_head_not _ _ hc) ch hch'
      · rw [chunkLoop_succ_le m fuel text hgt]
        by_cases hne : text = []
        · rw [if_neg (by simpa using hne)]
          subst hne
          exact ⟨by simp, by simp, by simp⟩
        · rw [if_pos hne]
          refine ⟨?_, by simp, ?_⟩
          · intro ch hch
            rw [List.mem_singleton.mp hch]
            omega
          · intro _ ch hch
            rw [List.mem_singleton.mp hch]
            exact hne

/-- C3 (amended): for every text and `max_chars > 0`, `_chunk_text`
returns chunks that never exceed `max_chars` (hard cuts included — the
oversized-token exception of the claim is never even needed), whose
concatenation preserves every non-whitespace character of the input in
order, and which are all non-empty provided the input is non-empty and
does not begin with whitespace; split points are chosen by the
terminator/newline/space/hard-cut preference order embodied in
`chooseSplitIdx`.  (For whitespace-led windows an empty chunk can be
produced — see the counterexample.) -/
theorem c3_chunk_amended (text : List Char) (m : Nat) (hm : 0 < m) :
    (∀ ch ∈ chunk_text text m, ch.length ≤ m) ∧
    (chunk_text text m).flatten.filter (fun c => !isPySpace c) =
      text.filter (fun c => !isPySpace c) ∧
    ((text ≠ [] ∧ ∀ c, text.head? = some c → isPySpace c = false) →
      ∀ ch ∈ chunk_text text m, ch ≠ []) := by
  rw [chunk_text]
  by_cases hfits : text.length ≤ m
  · rw [if_pos hfits]
    refine ⟨?_, by simp, ?_⟩
    · intro ch hch
      rw [List.mem_singleton.mp hch]
      exact hfits
    · rintro ⟨hne, -⟩ ch hch
      rw [List.mem_singleton.mp hch]
      exact hne
  · rw [if_neg hfits]
    have h := chunkLoop_props m hm text.length text le_rfl
    exact ⟨h.1, h.2.1, fun hpair => h.2.2 hpair.2⟩

/-- Witness for C3 (amended) at a concrete split. -/
theorem c3_chunk_amended_witness :
    (∀ ch ∈ chunk_text ("ab cd".toList) 3, ch.length ≤ 3) ∧
    (chunk_text ("ab cd".toList) 3).flatten.filter (fun c => !isPySpace c) =
      ("ab cd".toList).filter (fun c => !isPySpace c) ∧
    (("ab cd".toList ≠ [] ∧
        ∀ c, ("ab cd".toList).head? = some c → isPySpace c = false) →
      ∀ ch ∈ chunk_text ("ab cd".toList) 3, ch ≠ []) :=
  c3_chunk_amended ("ab cd".toList) 3 (by decide)

/-- C3 (counterexample): `_chunk_text "   a" 3` produces the empty
string as its first chunk — the claimed "no chunk is the empty string"
guarantee fails on inputs with whitespace-led split windows. -/
theorem c3_chunk_counterexample :
    chunk_text ("   a".toList) 3 = [[], ['a']] ∧
    [] ∈ chunk_text ("   a".toList) 3 := by
  decide

/-! ### Lemmas for C4 -/

/-- Flattening a non-empty list of non-empty byte strings is
non-empty. -/
theorem flatten_ne_nil (l : List (List Nat)) (hne : l ≠ [])
    (hall : ∀ p ∈ l, p ≠ []) : l.flatten ≠ [] := by
  cases l with
  | nil => exact absurd rfl hne
  | cons a t =>
      rw [List.flatten_cons]
      intro h
      exact hall a (List.mem_cons_self a t)
        (List.append_eq_nil.mp h).1

/-- A successful `save` writes a non-empty file: the stream only
succeeds after yielding at least one non-empty audio payload. -/
theorem save_ok_nonempty (env : Nat → ConnAttempt)
    (h : (SSML_save env).2 = none) : (SSML_save env).1 ≠ [] := by
  rcases h0 : runStream (env 0) with ⟨y1, e1⟩
  rcases e1 with _ | e1
  · have hy1 := streamLoop_ok_nonempty (env 0).msgs (env 0).postError
      false [] y1 (by simp) (by simp) h0
    simp only [SSML_save, SSML_stream, h0]
    exact flatten_ne_nil y1 hy1.1 hy1.2
  · rcases e1 with _ | _ | _ | s
    · simp [SSML_save, SSML_stream, h0] at h
    · simp [SSML_save, SSML_stream, h0] at h
    · simp [SSML_save, SSML_stream, h0] at h
    · by_cases hs : s = 403
      · subst hs
        rcases h1 : runStream (env 1) with ⟨y2, e2⟩
        rcases e2 with _ | e2
        · have hy2 := streamLoop_ok_nonempty (env 1).msgs (env 1).postError
            false [] y2 (by simp) (by simp) h1
          have hflat : (SSML_save env).1 = y1.flatten ++ y2.flatten := by
            simp [SSML_save, SSML_stream, h0, h1]
          rw [hflat]
          intro hcontra
          exact flatten_ne_nil y2 hy2.1 hy2.2
            (List.append_eq_nil.mp hcontra).2
        · simp [SSML_save, SSML_stream, h0, h1] at h
      · simp [SSML_save, SSML_stream, h0, hs] at h

/-- A successful `_attempt_generate_audio` leaves a non-empty
destination file. -/
theorem attempt_ok_file (envA : Tier → Nat → ConnAttempt)
    (f : Option (List Nat)) (n : Nat)
    (h : (attempt_generate_audio envA f).result = .ok n) :
    ∃ b, (attempt_generate_audio envA f).file = some b ∧ b ≠ [] := by
  rcases h1 : (SSML_save (envA .silenceTagged)).2 with _ | e1
  · refine ⟨(SSML_save (envA .silenceTagged)).1, ?_, save_ok_nonempty _ h1⟩
    simp [attempt_generate_audio, h1]
  · rcases h2 : (SSML_save (envA .breakTagged)).2 with _ | e2
    · refine ⟨(SSML_save (envA .breakTagged)).1, ?_, save_ok_nonempty _ h2⟩
      simp [attempt_generate_audio, h1, h2]
    · rcases h3 : (SSML_save (envA .plainOrRaw)).2 with _ | e3
      · refine ⟨(SSML_save (envA .plainOrRaw)).1, ?_, save_ok_nonempty _ h3⟩
        simp [attempt_generate_audio, h1, h2, h3]
      · exfalso
        rw [attempt_generate_audio] at h
        simp only [h1, h2, h3] at h
        cases h

/-- A successful retry loop leaves a non-empty destination file. -/
theorem genLoop_ok_file :
    ∀ (rem : Nat) (env : Nat → Tier → Nat → ConnAttempt)
      (f : Option (List Nat)) (attempt n : Nat),
      (genLoop env f attempt rem).result = .ok n →
      ∃ b, (genLoop env f attempt rem).file = some b ∧ b ≠ [] := by
  intro rem
  induction rem with
  | zero => intro env f attempt n h; cases h
  | succ rem ih =>
      intro env f attempt n h
      rcases hr : (attempt_generate_audio (env attempt) f).result with e | k
      · rcases rem with _ | rem'
        · rw [genLoop] at h ⊢
          simp only [hr] at h ⊢
          cases h
        · rw [genLoop] at h ⊢
          simp only [hr] at h ⊢
          exact ih env _ (attempt + 1) n h
      · rw [genLoop] at h ⊢
        simp only [hr] at h ⊢
        exact attempt_ok_file (env attempt) f k hr

/-- A successful `_generate_audio` leaves a non-empty destination
file. -/
theorem generate_audio_ok_file (env : Nat → Tier → Nat → ConnAttempt)
    (f : Option (List Nat)) (n : Nat)
    (h : (generate_audio env f).result = .ok n) :
    ∃ b, (generate_audio env f).file = some b ∧ b ≠ [] := by
  rcases hr : (genLoop env f 1 3).result with e | k
  · exfalso
    rw [generate_audio] at h
    simp only [hr] at h
    rcases e with _ | e'
    · cases h
    · cases e' <;> cases h
  · rw [generate_audio] at h ⊢
    simp only [hr] at h ⊢
    exact genLoop_ok_file 3 env f 1 k hr

/-- A successful multi-chunk loop merges non-empty chunk files into a
non-empty destination. -/
theorem multiLoop_props (env : Nat → Nat → Tier → Nat → ConnAttempt) :
    ∀ (cs : List (List Char)) (i : Nat) (acc : List (List Nat)),
      (∀ b ∈ acc, b ≠ []) → (cs ≠ [] ∨ acc ≠ []) →
      (multiChunkLoop env i cs acc).2 = none →
      ∃ f, (multiChunkLoop env i cs acc).1 = some f ∧ f ≠ [] := by
  intro cs
  induction cs with
  | nil =>
      intro i acc hacc hne _
      refine ⟨mergeFiles acc.reverse, rfl, ?_⟩
      refine flatten_ne_nil _ ?_ ?_
      · rcases hne with h | h
        · exact absurd rfl h
        · simpa using h
      · intro p hp
        exact hacc p (List.mem_reverse.mp hp)
  | cons c rest ih =>
      intro i acc hacc _ hok
      rcases hr : (generate_audio (env i) none).result with e | k
      · rw [multiChunkLoop] at hok
        simp only [hr] at hok
        cases hok
      · obtain ⟨b, hb, hbne⟩ := generate_audio_ok_file (env i) none k hr
        rw [multiChunkLoop] at hok ⊢
        simp only [hr] at hok ⊢
        refine ih (i + 1) _ ?_ (Or.inr (by simp)) hok
        intro p hp
        rcases List.mem_cons.mp hp with rfl | hp'
        · rw [hb]
          simpa using hbne
        · exact hacc p hp'

/-- `_chunk_text` never returns an empty chunk list on non-empty
input. -/
theorem chunk_text_ne_nil (text : List Char) (m : Nat)
    (hne : text ≠ []) : chunk_text text m ≠ [] := by
  rw [chunk_text]
  by_cases hfits : text.length ≤ m
  · simp [hfits]
  · rw [if_neg hfits]
    rcases hfuel : text.length with _ | k
    · exact absurd (List.eq_nil_of_length_eq_zero hfuel) hne
    · rw [chunkLoop_succ_gt m k text (by omega)]
      simp

/-- C4 (amended): whenever `_generate_single_file` returns without
raising on a text that is non-empty and not whitespace-only after
pre-processing, the destination file exists and is non-empty — in the
single-chunk path because a successful session `save` always writes at
least one non-empty audio payload, and in the multi-chunk path because
the merge concatenates non-empty per-chunk files.  (For text that
becomes empty or whitespace-only, the function instead returns
successfully without creating the file — see the counterexample.) -/
theorem c4_singlefile_amended (text : List Char)
    (env : Nat → Nat → Tier → Nat → ConnAttempt)
    (hne : ¬ (text = [] ∨ pyStrip text = []))
    (hok : (generate_single_file text env).2 = none) :
    ∃ f, (generate_single_file text env).1 = some f ∧ f ≠ [] := by
  rw [generate_single_file, if_neg hne] at hok ⊢
  by_cases hlen1 : (chunk_text text 5000).length = 1
  · rw [if_pos hlen1] at hok ⊢
    rcases hr : (generate_audio (env 0) none).result with e | k
    · simp only [hr] at hok
      cases hok
    · obtain ⟨b, hb, hbne⟩ := generate_audio_ok_file (env 0) none k hr
      simp only [hr]
      exact ⟨b, hb, hbne⟩
  · rw [if_neg hlen1] at hok ⊢
    have htne : text ≠ [] := fun h => hne (Or.inl h)
    refine multiLoop_props env (chunk_text text 5000) 0 [] (by simp) ?_ hok
    exact Or.inl (chunk_text_ne_nil text 5000 htne)

/-- Witness for C4 (amended): a short text with a perfect network
yields a non-empty destination file. -/
theorem c4_singlefile_amended_witness :
    ∃ f, (generate_single_file ("hi".toList) envPerfect).1 = some f ∧
      f ≠ [] :=
  c4_singlefile_amended ("hi".toList) envPerfect (by decide) (by decide)

/-- C4 (counterexample): on whitespace-only pre-processed text
`_generate_single_file` returns without raising and without creating
the destination file — even with a perfect network — refuting the
claim for the "text that becomes empty or whitespace-only" case. -/
theorem c4_singlefile_counterexample :
    generate_single_file (" ".toList) envPerfect = (none, none) := by
  decide

end EdgeTts
